import Mathlib

/-!
Verification model of `cargo-next`, a CLI helper that reads, displays and
increments the semantic version stored at `package.version` of a `Cargo.toml`
manifest.  The definitions below shallowly embed `src/src/lib.rs` and
`src/src/main.rs`; the `semver` and `toml_edit` dependencies are modelled
from their documented behaviour where the program uses them.
-/

set_option maxRecDepth 8000

namespace CargoNext

/-! ### Semantic versions (model of the `semver` crate as the program uses it) -/

/-- `2^64`: Rust `u64` values lie strictly below this bound, and (release-mode)
`u64` addition wraps at it. -/
def u64Mod : Nat := 18446744073709551616

/-- Model of `semver::Version`: three numeric (`u64`) components plus optional
pre-release and build-metadata identifiers; the empty string stands for an
absent suffix, as in the crate's `Prerelease::EMPTY` / `BuildMetadata::EMPTY`. -/
structure Version where
  major : Nat
  minor : Nat
  patch : Nat
  pre : String
  build : String
deriving DecidableEq

/-- `Increment` (src/src/lib.rs lines 27-34). -/
inductive Increment where
  | Major
  | Minor
  | Patch
deriving DecidableEq

/-- `Error` (src/src/lib.rs lines 8-23).  The payloads of the wrapped
io/semver/toml errors carry no information the program inspects, so they are
not modelled. -/
inductive Error where
  | IoError
  | SemverParseError
  | ParseError
  | InvalidFieldType (field : String) (ty : String)
deriving DecidableEq

/-- The numeric value of a decimal digit character. -/
def digitVal (c : Char) : Nat := c.toNat - 48

/-- The value of a digit string, most significant digit first. -/
def digitsVal (cs : List Char) : Nat := cs.foldl (fun a c => a * 10 + digitVal c) 0

/-- Model of the semver crate's numeric-identifier parsing: a nonempty run of
decimal digits, with no leading zero, whose value fits in a `u64` (the crate
rejects larger components with an overflow error). -/
def parseNumericId (cs : List Char) : Option (Nat × List Char) :=
  let ds := cs.takeWhile Char.isDigit
  if ds.isEmpty then none
  else if ds.head? = some '0' ∧ ds.length ≠ 1 then none
  else if digitsVal ds < u64Mod then some (digitsVal ds, cs.dropWhile Char.isDigit)
  else none

/-- The characters the semver grammar allows inside pre-release and build
identifiers: ASCII alphanumerics and hyphens. -/
def isIdentChar (c : Char) : Bool := c.isDigit || c.isAlpha || c = '-'

/-- A character that may appear in the suffix part: an identifier character or
the dot separating identifiers. -/
def isSuffixChar (c : Char) : Bool := isIdentChar c || c = '.'

/-- Split a character list at the dots. -/
def splitSegs : List Char → List (List Char)
  | [] => [[]]
  | c :: rest =>
    if c = '.' then [] :: splitSegs rest
    else
      match splitSegs rest with
      | [] => [[c]]
      | seg :: segs => (c :: seg) :: segs

/-- A valid pre-release identifier: nonempty, identifier characters only, and
an all-numeric identifier has no leading zero. -/
def validPreSeg (seg : List Char) : Bool :=
  !seg.isEmpty && seg.all isIdentChar &&
    (!seg.all Char.isDigit || seg.length = 1 || seg.head? ≠ some '0')

/-- A valid build-metadata identifier: nonempty, identifier characters only. -/
def validBuildSeg (seg : List Char) : Bool :=
  !seg.isEmpty && seg.all isIdentChar

/-- Parsing of the build-metadata tail, after the `+`. -/
def parseBuildTail (maj minr pat : Nat) (pre : String) (cs : List Char) :
    Option Version :=
  let b := cs.takeWhile isSuffixChar
  if cs.dropWhile isSuffixChar = [] ∧ (splitSegs b).all validBuildSeg then
    some ⟨maj, minr, pat, pre, String.mk b⟩
  else none

/-- Parsing of what follows `major.minor.patch`: nothing, `-pre`, `-pre+build`
or `+build`. -/
def parseTail (maj minr pat : Nat) : List Char → Option Version
  | [] => some ⟨maj, minr, pat, "", ""⟩
  | '-' :: rest =>
    let p := rest.takeWhile isSuffixChar
    if (splitSegs p).all validPreSeg then
      match rest.dropWhile isSuffixChar with
      | [] => some ⟨maj, minr, pat, String.mk p, ""⟩
      | '+' :: brest => parseBuildTail maj minr pat (String.mk p) brest
      | _ => none
    else none
  | '+' :: brest => parseBuildTail maj minr pat "" brest
  | _ => none

/-- Model of `semver::Version::parse`: `major.minor.patch` with an optional
pre-release and build-metadata suffix; `none` models the crate's parse error. -/
def parseVersion (s : String) : Option Version :=
  match parseNumericId s.data with
  | some (maj, '.' :: cs1) =>
    match parseNumericId cs1 with
    | some (minr, '.' :: cs2) =>
      match parseNumericId cs2 with
      | some (pat, cs3) => parseTail maj minr pat cs3
      | none => none
    | _ => none
  | _ => none

/-- The decimal digits of `n`, most significant first (`[]` for `0`), with a
fuel argument making the recursion structural; `fuel ≥ n` gives the digits. -/
def natDigitsAux : Nat → Nat → List Char
  | 0, _ => []
  | _, 0 => []
  | fuel + 1, n + 1 =>
    natDigitsAux fuel ((n + 1) / 10) ++ [Nat.digitChar ((n + 1) % 10)]

/-- The decimal digits of `n`, most significant first (`[]` for `0`). -/
def natDigits (n : Nat) : List Char := natDigitsAux n n

/-- The decimal rendering of a natural number (model of `u64`'s `Display`). -/
def natRepr (n : Nat) : List Char := if n = 0 then ['0'] else natDigits n

/-- Model of `semver::Version`'s `Display`/`to_string`:
`major.minor.patch`, then `-pre` and `+build` when present. -/
def Version.render (v : Version) : String :=
  String.mk (natRepr v.major ++ '.' :: natRepr v.minor ++ '.' :: natRepr v.patch
    ++ (if v.pre = "" then [] else '-' :: v.pre.data)
    ++ (if v.build = "" then [] else '+' :: v.build.data))

/-! ### The increment operations (src/src/lib.rs lines 137-164) -/

/-- `bump_major` (src/src/lib.rs lines 150-154); `self.major += 1` is `u64`
addition, which wraps at `2^64`. -/
def bump_major (v : Version) : Version :=
  { v with major := (v.major + 1) % u64Mod, minor := 0, patch := 0 }

/-- `bump_minor` (src/src/lib.rs lines 156-159). -/
def bump_minor (v : Version) : Version :=
  { v with minor := (v.minor + 1) % u64Mod, patch := 0 }

/-- `bump_patch` (src/src/lib.rs lines 161-163). -/
def bump_patch (v : Version) : Version :=
  { v with patch := (v.patch + 1) % u64Mod }

/-- The increment dispatch inside `bump_version` (src/src/lib.rs lines
119-123). -/
def increment (v : Version) : Increment → Version
  | .Major => bump_major v
  | .Minor => bump_minor v
  | .Patch => bump_patch v

/-- `bump_version` (src/src/lib.rs lines 117-125). -/
def bump_version (version_str : String) (inc : Increment) : Except Error Version :=
  match parseVersion version_str with
  | none => .error .SemverParseError
  | some v => .ok (increment v inc)

/-- The numeric component of `v` that increment kind `k` advances. -/
def selComp (v : Version) : Increment → Nat
  | .Major => v.major
  | .Minor => v.minor
  | .Patch => v.patch

/-! ### The manifest document (model of the `toml_edit` crate as used here) -/

/-- Model of `toml_edit::Item` restricted to the shapes the program can
observe: `nil` is `Item::None`, `str`/`int` are string/integer values, and
`table` covers the table-like items (tables and inline tables); `entries`
keeps the key order. -/
inductive Item where
  | nil
  | str (s : String)
  | int (n : Int)
  | table (entries : List (String × Item))

/-- First-match lookup in a table's entry list. -/
def getEntry : List (String × Item) → String → Item
  | [], _ => .nil
  | (k, v) :: rest, key => if k = key then v else getEntry rest key

/-- Model of toml_edit's `Index` on `&Item` (serde_json-style): a missing key,
or indexing into an item that is not table-like, yields `Item::None`. -/
def Item.get : Item → String → Item
  | .table es, key => getEntry es key
  | _, _ => .nil

/-- Replace the value at `key`, or append the pair when the key is absent
(toml_edit's `entry(key).or_insert` followed by assignment). -/
def setEntry : List (String × Item) → String → Item → List (String × Item)
  | [], key, v => [(key, v)]
  | (k, w) :: rest, key, v =>
    if k = key then (k, v) :: rest else (k, w) :: setEntry rest key v

/-- Model of toml_edit's `IndexMut` one level down: `Item::None` is
auto-vivified into an implicit table; indexing a non-table-like item with a
string key is a panic in Rust, modelled as `none`. -/
def Item.setIn : Item → String → Item → Option Item
  | .nil, key, v => some (.table [(key, v)])
  | .table es, key, v => some (.table (setEntry es key v))
  | _, _, _ => none

/-- Model of `toml_edit::Document`: the root table's entries.  The layout
(comments, whitespace) toml_edit preserves does not affect any value the
program observes, so it is not modelled. -/
structure Document where
  root : List (String × Item)

/-- The item the program reads as `doc["package"]["version"]`. -/
def Document.versionItem (d : Document) : Item :=
  (Item.get (Item.table d.root) "package").get "version"

/-- `doc["package"]["version"] = value(s)` (src/src/lib.rs line 94): `none`
models the panic when `package` exists but is not table-like. -/
def Document.setPackageVersion (d : Document) (s : String) : Option Document :=
  match (Item.get (Item.table d.root) "package").setIn "version" (.str s) with
  | some pkg => some ⟨setEntry d.root "package" pkg⟩
  | none => none

/-- A manifest file's content: raw text that does not parse as TOML, or a
well-formed file identified with its parsed document (toml_edit's
serialize/parse round-trip justifies the identification). -/
inductive FileContent where
  | raw (s : String)
  | doc (d : Document)

/-- The manifest file's state: `none` when the file does not exist.  `fs`
writes are modelled as atomic. -/
abbrev FileState := Option FileContent

/-! ### The library operations over a manifest file (src/src/lib.rs) -/

/-- `get_package_version_str` (src/src/lib.rs lines 36-50). -/
def get_package_version_str (st : FileState) : Except Error String :=
  match st with
  | none => .error .IoError
  | some (.raw _) => .error .ParseError
  | some (.doc d) =>
    match d.versionItem with
    | .str s => .ok s
    | _ => .error (.InvalidFieldType "version" "string")

/-- `get_version` (src/src/lib.rs lines 62-76). -/
def get_version (st : FileState) : Except Error Version :=
  match st with
  | none => .error .IoError
  | some (.raw _) => .error .ParseError
  | some (.doc d) =>
    match d.versionItem with
    | .str s =>
      match parseVersion s with
      | some v => .ok v
      | none => .error .SemverParseError
    | _ => .error (.InvalidFieldType "version" "string")

/-- `set_version` (src/src/lib.rs lines 89-98): parse the version string, read
the file, parse it as TOML, replace `package.version` with the rendered
version, write the document back.  The outer `none` models the Rust panic on
a non-table-like `package` item. -/
def set_version (st : FileState) (version_str : String) :
    Option (Except Error Version × FileState) :=
  match parseVersion version_str with
  | none => some (.error .SemverParseError, st)
  | some v =>
    match st with
    | none => some (.error .IoError, st)
    | some (.raw _) => some (.error .ParseError, st)
    | some (.doc d) =>
      match d.setPackageVersion (Version.render v) with
      | none => none
      | some d2 => some (.ok v, some (.doc d2))

/-- `bump_toml_version` (src/src/lib.rs lines 110-115). -/
def bump_toml_version (st : FileState) (inc : Increment) :
    Option (Except Error Version × FileState) :=
  match get_package_version_str st with
  | .error e => some (.error e, st)
  | .ok vs =>
    match bump_version vs inc with
    | .error e => some (.error e, st)
    | .ok v =>
      match set_version st (Version.render v) with
      | none => none
      | some (.error e, st2) => some (.error e, st2)
      | some (.ok _, st2) => some (.ok v, st2)

/-! ### The CLI driver (src/src/main.rs) -/

/-- `Commands` (src/src/main.rs lines 15-22). -/
inductive Commands where
  | Get
  | Major
  | Minor
  | Patch
  | Set (version : Option String)
deriving DecidableEq

/-- Leading and trailing whitespace removed (model of Rust's `str::trim`;
the ASCII whitespace the claims exercise is trimmed alike by both). -/
def rustTrim (s : String) : String :=
  String.mk (((s.data.dropWhile Char.isWhitespace).reverse.dropWhile
    Char.isWhitespace).reverse)

/-- `read_stdin` (src/src/main.rs lines 24-32), with the line read from
standard input passed in explicitly: the trimmed line, or `none` when it
trims to nothing. -/
def read_stdin (line : String) : Option String :=
  let t := rustTrim line
  if t.isEmpty then none else some t

/-- The observable outcome of one run of `main`: the process exit code, the
lines printed to standard output, the result of the dispatched core operation
(`none` when the pre-flight existence check already failed), and the final
manifest state. -/
structure RunResult where
  exitCode : Nat
  stdout : List String
  res : Option (Except Error Version)
  state : FileState

/-- `main` (src/src/main.rs lines 34-70): the pre-flight manifest-existence
check, the command dispatch, the `Get`-only printing of the version, and the
mapping of an error result to exit code 1.  The outer `none` models a Rust
panic inside `set_version`. -/
def runCommand (st : FileState) (cmd : Commands) (stdinLine : String) :
    Option RunResult :=
  match st with
  | none => some ⟨1, [], none, none⟩
  | some _ =>
    let step : Option (Except Error Version × List String × FileState) :=
      match cmd with
      | .Get =>
        let r := get_version st
        some (r, (match r with | .ok v => [Version.render v] | .error _ => []), st)
      | .Set vArg =>
        match (match vArg with | some x => some x | none => read_stdin stdinLine) with
        | some vs => (set_version st vs).map fun p => (p.1, [], p.2)
        | none =>
          some ((match parseVersion "0.0.0" with
                 | some v => .ok v
                 | none => .error .SemverParseError), [], st)
      | .Major => (bump_toml_version st .Major).map fun p => (p.1, [], p.2)
      | .Minor => (bump_toml_version st .Minor).map fun p => (p.1, [], p.2)
      | .Patch => (bump_toml_version st .Patch).map fun p => (p.1, [], p.2)
    step.map fun q =>
      ⟨(match q.1 with | .ok _ => 0 | .error _ => 1), q.2.1, some q.1, q.2.2⟩

/-- The character list underlying `String.mk`. -/
theorem data_mk (l : List Char) : (String.mk l).data = l := rfl

/-- `digitVal` inverts `Nat.digitChar` on single digits. -/
theorem digitVal_digitChar (r : Nat) (h : r < 10) : digitVal (Nat.digitChar r) = r := by
  interval_cases r <;> decide

/-- `Nat.digitChar` of a single digit is a digit character. -/
theorem isDigit_digitChar (r : Nat) (h : r < 10) : (Nat.digitChar r).isDigit = true := by
  interval_cases r <;> decide

/-- A nonzero digit does not render as the character `0`. -/
theorem digitChar_ne_zero (r : Nat) (h1 : 1 ≤ r) (h2 : r < 10) : Nat.digitChar r ≠ '0' := by
  interval_cases r <;> decide

/-- Zero has no digits, at any fuel. -/
theorem natDigitsAux_zero (f : Nat) : natDigitsAux f 0 = [] := by
  cases f <;> rfl

/-- With enough fuel, the rendered digits evaluate back to the number. -/
theorem digitsVal_natDigitsAux : ∀ f n, n ≤ f → digitsVal (natDigitsAux f n) = n := by
  intro f
  induction f with
  | zero => intro n h; interval_cases n; rfl
  | succ f ih =>
    intro n h
    match n with
    | 0 => rfl
    | m + 1 =>
      have hd : (m + 1) / 10 ≤ f := by omega
      have hv := ih _ hd
      unfold digitsVal at hv ⊢
      simp only [natDigitsAux, List.foldl_append, hv, List.foldl_cons, List.foldl_nil]
      rw [digitVal_digitChar _ (by omega)]
      omega

/-- With enough fuel, every rendered character is a decimal digit. -/
theorem natDigitsAux_all_digits : ∀ f n, n ≤ f → ∀ c ∈ natDigitsAux f n, c.isDigit = true := by
  intro f
  induction f with
  | zero => intro n h; interval_cases n; simp [natDigitsAux]
  | succ f ih =>
    intro n h c hc
    match n with
    | 0 => simp [natDigitsAux] at hc
    | m + 1 =>
      simp only [natDigitsAux, List.mem_append, List.mem_singleton] at hc
      rcases hc with hc | hc
      · exact ih _ (by omega) c hc
      · subst hc; exact isDigit_digitChar _ (by omega)

/-- A nonzero number renders to at least one digit. -/
theorem natDigitsAux_ne_nil : ∀ f n, n ≤ f → n ≠ 0 → natDigitsAux f n ≠ [] := by
  intro f n h hn
  rcases f with _ | f
  · omega
  · rcases n with _ | m
    · exact absurd rfl hn
    · simp [natDigitsAux]

/-- The head of an append is the head of a nonempty left part. -/
theorem head?_append_left (l m : List Char) (h : l ≠ []) : (l ++ m).head? = l.head? := by
  cases l with
  | nil => exact absurd rfl h
  | cons a t => rfl

/-- The decimal rendering never has a leading zero digit. -/
theorem natDigitsAux_head_ne_zero : ∀ f n, n ≤ f → (natDigitsAux f n).head? ≠ some '0' := by
  intro f
  induction f with
  | zero => intro n h; interval_cases n; simp [natDigitsAux]
  | succ f ih =>
    intro n h
    match n with
    | 0 => simp [natDigitsAux]
    | m + 1 =>
      by_cases hq : (m + 1) / 10 = 0
      · simp only [natDigitsAux, hq, natDigitsAux_zero, List.nil_append, List.head?_cons]
        have h10 : m + 1 < 10 := by omega
        have hr : (m + 1) % 10 = m + 1 := Nat.mod_eq_of_lt h10
        intro hcontra
        injection hcontra with hc
        exact absurd hc (digitChar_ne_zero ((m + 1) % 10) (by omega) (by omega))
      · have hle : (m + 1) / 10 ≤ f := by omega
        simp only [natDigitsAux]
        rw [head?_append_left _ _ (natDigitsAux_ne_nil f _ hle hq)]
        exact ih _ hle

/-- `takeWhile`/`dropWhile` split an append exactly at a satisfying prefix
followed by a non-satisfying head. -/
theorem takeWhile_dropWhile_append (p : Char → Bool) (l rest : List Char)
    (hl : ∀ c ∈ l, p c = true) (hr : ∀ c, rest.head? = some c → p c = false) :
    (l ++ rest).takeWhile p = l ∧ (l ++ rest).dropWhile p = rest := by
  induction l with
  | nil =>
    cases rest with
    | nil => simp
    | cons c t =>
      have hc := hr c rfl
      simp [List.takeWhile_cons, List.dropWhile_cons, hc]
  | cons a l ih =>
    have ha := hl a (List.mem_cons_self a l)
    have ih2 := ih (fun c hc => hl c (List.mem_cons_of_mem a hc))
    simp [List.takeWhile_cons, List.dropWhile_cons, ha, ih2.1, ih2.2]

/-- Every character of `natDigits` is a decimal digit. -/
theorem natDigits_all_digits (n : Nat) : ∀ c ∈ natDigits n, c.isDigit = true :=
  natDigitsAux_all_digits n n (Nat.le_refl n)

/-- The digits of `n` evaluate back to `n`. -/
theorem digitsVal_natDigits (n : Nat) : digitsVal (natDigits n) = n :=
  digitsVal_natDigitsAux n n (Nat.le_refl n)

/-- Every character of the decimal rendering is a decimal digit. -/
theorem natRepr_all_digits (n : Nat) : ∀ c ∈ natRepr n, c.isDigit = true := by
  unfold natRepr
  by_cases h : n = 0
  · simp [h]
  · simp only [h, if_false]
    exact natDigits_all_digits n

/-- Parsing a numeric identifier off a rendered `u64` component consumes
exactly the rendering and returns the component. -/
theorem parseNumericId_natRepr (n : Nat) (hn : n < u64Mod) (rest : List Char)
    (hr : ∀ c, rest.head? = some c → c.isDigit = false) :
    parseNumericId (natRepr n ++ rest) = some (n, rest) := by
  have h := takeWhile_dropWhile_append Char.isDigit (natRepr n) rest (natRepr_all_digits n) hr
  unfold parseNumericId
  rw [h.1, h.2]
  by_cases h0 : n = 0
  · subst h0
    simp [natRepr, digitsVal, digitVal, u64Mod]
  · have hne : natRepr n ≠ [] := by
      unfold natRepr
      simp only [h0, if_false]
      exact natDigitsAux_ne_nil n n (Nat.le_refl n) h0
    have hhead : (natRepr n).head? ≠ some '0' := by
      unfold natRepr
      simp only [h0, if_false]
      exact natDigitsAux_head_ne_zero n n (Nat.le_refl n)
    have hval : digitsVal (natRepr n) = n := by
      unfold natRepr
      simp only [h0, if_false]
      exact digitsVal_natDigits n
    have hemp : (natRepr n).isEmpty = false := by
      cases hcase : natRepr n with
      | nil => exact absurd hcase hne
      | cons a t => rfl
    have hcond : ¬((natRepr n).head? = some '0' ∧ (natRepr n).length ≠ 1) := by
      intro hcontra
      exact hhead hcontra.1
    simp [hemp, hcond, hval, hn]

/-- The canonical version string `a.b.c`: decimal components, no leading
zeros, no suffix. -/
def canonVersionString (a b c : Nat) : String :=
  String.mk (natRepr a ++ '.' :: natRepr b ++ '.' :: natRepr c)

/-- A bare version renders to the canonical string of its components. -/
theorem render_canon (a b c : Nat) :
    Version.render ⟨a, b, c, "", ""⟩ = canonVersionString a b c := by
  unfold Version.render canonVersionString
  simp

/-- Parsing a canonical version string with `u64`-sized components succeeds
and recovers the components. -/
theorem parseVersion_canon (a b c : Nat)
    (ha : a < u64Mod) (hb : b < u64Mod) (hc : c < u64Mod) :
    parseVersion (canonVersionString a b c) = some ⟨a, b, c, "", ""⟩ := by
  have hdot : ∀ (t : List Char) (ch : Char), ('.' :: t).head? = some ch → ch.isDigit = false := by
    intro t ch h
    simp at h
    subst h
    decide
  have e1 : parseNumericId (natRepr a ++ '.' :: natRepr b ++ '.' :: natRepr c) =
      some (a, '.' :: (natRepr b ++ '.' :: natRepr c)) := by
    have := parseNumericId_natRepr a ha ('.' :: (natRepr b ++ '.' :: natRepr c)) (hdot _)
    simpa using this
  have e2 : parseNumericId (natRepr b ++ '.' :: natRepr c) =
      some (b, '.' :: natRepr c) := parseNumericId_natRepr b hb _ (hdot _)
  have e3 : parseNumericId (natRepr c) = some (c, []) := by
    have := parseNumericId_natRepr c hc [] (by intro ch h; simp at h)
    simpa using this
  unfold parseVersion canonVersionString
  simp only [data_mk, e1, e2, e3]
  rfl

/-- Lookup after `setEntry` at the same key finds the new value. -/
theorem getEntry_setEntry (es : List (String × Item)) (key : String) (v : Item) :
    getEntry (setEntry es key v) key = v := by
  induction es with
  | nil => simp [setEntry, getEntry]
  | cons p rest ih =>
    obtain ⟨k, w⟩ := p
    by_cases hk : k = key
    · simp [setEntry, getEntry, hk]
    · simp [setEntry, getEntry, hk, ih]

/-- After a successful `package.version` update, the version item of the
resulting document is the written string. -/
theorem versionItem_setPackageVersion (d d2 : Document) (s : String)
    (h : d.setPackageVersion s = some d2) : d2.versionItem = .str s := by
  unfold Document.setPackageVersion at h
  unfold Document.versionItem
  cases hp : Item.get (Item.table d.root) "package" with
  | nil =>
    rw [hp] at h
    simp [Item.setIn] at h
    subst h
    simp [Item.get, getEntry_setEntry, getEntry]
  | str s2 => rw [hp] at h; simp [Item.setIn] at h
  | int n => rw [hp] at h; simp [Item.setIn] at h
  | table es =>
    rw [hp] at h
    simp [Item.setIn] at h
    subst h
    simp [Item.get, getEntry_setEntry]

/-- When `set_version` returns an error, the file state is unchanged and the
error is a version-parse, io, or TOML-parse error. -/
theorem set_version_error (st : FileState) (s : String) (e : Error) (st2 : FileState)
    (h : set_version st s = some (.error e, st2)) :
    st2 = st ∧ (e = .SemverParseError ∨ e = .IoError ∨ e = .ParseError) := by
  unfold set_version at h
  cases hp : parseVersion s with
  | none =>
    rw [hp] at h
    simp at h
    exact ⟨h.2.symm, Or.inl h.1.symm⟩
  | some v =>
    rw [hp] at h
    cases st with
    | none =>
      simp at h
      exact ⟨h.2.symm, Or.inr (Or.inl h.1.symm)⟩
    | some fc =>
      cases fc with
      | raw s2 =>
        simp at h
        exact ⟨h.2.symm, Or.inr (Or.inr h.1.symm)⟩
      | doc d =>
        cases hsp : d.setPackageVersion (Version.render v) with
        | none => simp [hsp] at h
        | some d3 => simp [hsp] at h

/-- A well-formed manifest document whose `package.version` is `\"0.1.0\"`. -/
def doc010 : Document := ⟨[("package", .table [("version", .str "0.1.0")])]⟩

/-- Claim C1, counterexample: `18446744073709551615.0.0` (major is
`u64::MAX`) is a valid semantic version, yet a Major increment leaves its
major component at `0` (the `u64` addition `self.major += 1` wraps), not one
greater than before. -/
theorem C1_counterexample :
    parseVersion "18446744073709551615.0.0" =
      some ⟨18446744073709551615, 0, 0, "", ""⟩ ∧
    (increment ⟨18446744073709551615, 0, 0, "", ""⟩ Increment.Major).major ≠
      18446744073709551615 + 1 :=
  ⟨rfl, by decide⟩

/-- Claim C1 (amended): for every version whose selected component
incremented still fits in a `u64`, the increment satisfies the reset rule —
Major zeroes minor and patch, Minor zeroes patch and keeps major, Patch keeps
major and minor — and the selected component of the result is exactly one
greater than in the input. -/
theorem C1_increment_reset_rule (v : Version) (k : Increment)
    (h : selComp v k + 1 < u64Mod) :
    (k = .Major → (increment v k).minor = 0 ∧ (increment v k).patch = 0) ∧
    (k = .Minor → (increment v k).patch = 0 ∧ (increment v k).major = v.major) ∧
    (k = .Patch → (increment v k).major = v.major ∧ (increment v k).minor = v.minor) ∧
    selComp (increment v k) k = selComp v k + 1 := by
  cases k <;>
    simp [increment, bump_major, bump_minor, bump_patch, selComp, u64Mod] at h ⊢ <;>
    omega

/-- Witness for C1 at the concrete version `1.2.3` with a Minor increment. -/
theorem C1_increment_reset_rule_witness :
    selComp (increment ⟨1, 2, 3, "", ""⟩ Increment.Minor) Increment.Minor =
      selComp ⟨1, 2, 3, "", ""⟩ Increment.Minor + 1 :=
  (C1_increment_reset_rule ⟨1, 2, 3, "", ""⟩ Increment.Minor (by decide)).2.2.2

/-- Claim C2, counterexample: bumping `1.2.3-alpha` with Patch yields a
version whose pre-release is still `alpha` — rendered `1.2.4-alpha` — so the
suffix is not discarded. -/
theorem C2_counterexample :
    bump_version "1.2.3-alpha" Increment.Patch = .ok ⟨1, 2, 4, "alpha", ""⟩ ∧
    Version.render ⟨1, 2, 4, "alpha", ""⟩ = "1.2.4-alpha" ∧
    ("alpha" : String) ≠ "" :=
  ⟨rfl, rfl, by decide⟩

/-- Claim C2 (amended): every increment preserves the pre-release and
build-metadata components unchanged; in particular a suffix carried by the
input is never discarded. -/
theorem C2_increment_preserves_suffix (v : Version) (k : Increment) :
    (increment v k).pre = v.pre ∧ (increment v k).build = v.build := by
  cases k <;> simp [increment, bump_major, bump_minor, bump_patch]

/-- Claim C3, counterexample: on a manifest that reads and parses as TOML,
`set_version` with the non-version string `not-a-version` fails with a
semver parse error — an error kind the claim excludes — instead of
succeeding. -/
theorem C3_counterexample :
    set_version (some (.doc doc010)) "not-a-version" =
      some (.error .SemverParseError, some (.doc doc010)) ∧
    Error.SemverParseError ≠ Error.IoError ∧
    Error.SemverParseError ≠ Error.ParseError :=
  ⟨rfl, by decide, by decide⟩

/-- Claim C3 (amended): `set_version` validates `new_value` as a semantic
version before touching the file — an invalid value fails with the semver
parse error and leaves the state unchanged; a valid value, on a parsed
document whose `package` slot is settable, succeeds and writes the rendered
version; and every error outcome is a semver-parse, io, or TOML-parse error
with the state unchanged. -/
theorem C3_set_version_validates (st : FileState) (nv : String) :
    (parseVersion nv = none →
      set_version st nv = some (.error .SemverParseError, st)) ∧
    (∀ v d d2, parseVersion nv = some v → st = some (.doc d) →
      d.setPackageVersion (Version.render v) = some d2 →
      set_version st nv = some (.ok v, some (.doc d2))) ∧
    (∀ e st2, set_version st nv = some (.error e, st2) →
      st2 = st ∧ (e = .SemverParseError ∨ e = .IoError ∨ e = .ParseError)) := by
  refine ⟨?_, ?_, ?_⟩
  · intro h
    simp [set_version, h]
  · intro v d d2 h1 h2 h3
    subst h2
    simp [set_version, h1, h3]
  · intro e st2 h
    exact set_version_error st nv e st2 h

/-- Claim C4 (confirmed): whenever `bump_toml_version` returns an error, the
manifest file's state is exactly what it was before the call — every parse
or validation error occurs strictly before the write. -/
theorem C4_bump_error_leaves_file_unchanged (st : FileState) (k : Increment)
    (e : Error) (st2 : FileState)
    (h : bump_toml_version st k = some (.error e, st2)) : st2 = st := by
  unfold bump_toml_version at h
  cases hg : get_package_version_str st with
  | error e2 => simp only [hg] at h; simp at h; exact h.2.symm
  | ok vs =>
    simp only [hg] at h
    cases hb : bump_version vs k with
    | error e2 => simp only [hb] at h; simp at h; exact h.2.symm
    | ok v =>
      simp only [hb] at h
      cases hs : set_version st (Version.render v) with
      | none => simp [hs] at h
      | some p =>
        obtain ⟨r, st3⟩ := p
        cases r with
        | error e3 =>
          simp [hs] at h
          obtain ⟨he, hst⟩ := h
          have h4 := set_version_error st (Version.render v) e3 st3 hs
          rw [← hst]
          exact h4.1
        | ok w => simp [hs] at h
      
/-- Witness for C4: bumping a missing manifest fails with an io error and
leaves the (absent) file state unchanged. -/
theorem C4_bump_error_leaves_file_unchanged_witness :
    (none : FileState) = (none : FileState) :=
  C4_bump_error_leaves_file_unchanged none Increment.Patch Error.IoError none rfl

/-- Claim C8 (confirmed): starting from `0.1.0`, the increment sequence
Patch, Minor, Patch, Patch, Major, Minor, Patch — each step applied to the
rendering of the previous result — yields `0.1.1`, `0.2.0`, `0.2.1`,
`0.2.2`, `1.0.0`, `1.1.0`, `1.1.1` in order. -/
theorem C8_sequential_bumps :
    bump_version "0.1.0" Increment.Patch = .ok ⟨0, 1, 1, "", ""⟩ ∧
    Version.render ⟨0, 1, 1, "", ""⟩ = "0.1.1" ∧
    bump_version "0.1.1" Increment.Minor = .ok ⟨0, 2, 0, "", ""⟩ ∧
    Version.render ⟨0, 2, 0, "", ""⟩ = "0.2.0" ∧
    bump_version "0.2.0" Increment.Patch = .ok ⟨0, 2, 1, "", ""⟩ ∧
    Version.render ⟨0, 2, 1, "", ""⟩ = "0.2.1" ∧
    bump_version "0.2.1" Increment.Patch = .ok ⟨0, 2, 2, "", ""⟩ ∧
    Version.render ⟨0, 2, 2, "", ""⟩ = "0.2.2" ∧
    bump_version "0.2.2" Increment.Major = .ok ⟨1, 0, 0, "", ""⟩ ∧
    Version.render ⟨1, 0, 0, "", ""⟩ = "1.0.0" ∧
    bump_version "1.0.0" Increment.Minor = .ok ⟨1, 1, 0, "", ""⟩ ∧
    Version.render ⟨1, 1, 0, "", ""⟩ = "1.1.0" ∧
    bump_version "1.1.0" Increment.Patch = .ok ⟨1, 1, 1, "", ""⟩ ∧
    Version.render ⟨1, 1, 1, "", ""⟩ = "1.1.1" :=
  ⟨rfl, rfl, rfl, rfl, rfl, rfl, rfl, rfl, rfl, rfl, rfl, rfl, rfl, rfl⟩

/-- Claim C9, counterexample: `18446744073709551616.0.0` is a canonical
`<uint>.<uint>.<uint>` string (it is `canonVersionString (2^64) 0 0`), yet
parsing fails because the major component overflows a `u64`. -/
theorem C9_counterexample :
    canonVersionString 18446744073709551616 0 0 = "18446744073709551616.0.0" ∧
    parseVersion "18446744073709551616.0.0" = none :=
  ⟨rfl, rfl⟩

/-- Claim C9 (amended): for components below `2^64`, parsing the canonical
string `a.b.c` succeeds and rendering the parsed version returns exactly
that string, so `render (parse s) = s` on such canonical strings. -/
theorem C9_render_parse_roundtrip (a b c : Nat)
    (ha : a < u64Mod) (hb : b < u64Mod) (hc : c < u64Mod) :
    parseVersion (canonVersionString a b c) = some ⟨a, b, c, "", ""⟩ ∧
    Version.render ⟨a, b, c, "", ""⟩ = canonVersionString a b c :=
  ⟨parseVersion_canon a b c ha hb hc, render_canon a b c⟩

/-- Witness for C9 at the concrete canonical string `1.22.333`. -/
theorem C9_render_parse_roundtrip_witness :
    parseVersion (canonVersionString 1 22 333) = some ⟨1, 22, 333, "", ""⟩ ∧
    Version.render ⟨1, 22, 333, "", ""⟩ = canonVersionString 1 22 333 :=
  C9_render_parse_roundtrip 1 22 333 (by decide) (by decide) (by decide)

/-- Claim C5, counterexample: a successful `patch` command on a well-formed
manifest exits 0 with the bumped result but prints nothing to standard
output — not the resulting version string the claim requires. -/
theorem C5_counterexample :
    runCommand (some (.doc doc010)) Commands.Patch "" =
      some ⟨0, [], some (.ok ⟨0, 1, 1, "", ""⟩),
        some (.doc ⟨[("package", .table [("version", .str "0.1.1")])]⟩)⟩ ∧
    ([] : List String) ≠ [Version.render ⟨0, 1, 1, "", ""⟩] :=
  ⟨rfl, by decide⟩

/-- `0.0.0` parses to the zero version. -/
theorem parse000 : parseVersion "0.0.0" = some ⟨0, 0, 0, "", ""⟩ := rfl

/-- Claim C5 (amended): when the dispatched core operation succeeds the
driver exits with status 0, and it prints the resulting version string to
standard output for `get` only — `major`, `minor`, `patch` and `set` print
nothing on success. -/
theorem C5_success_exit_and_stdout (st : FileState) (cmd : Commands)
    (line : String) (r : RunResult) (v : Version)
    (h1 : runCommand st cmd line = some r) (h2 : r.res = some (.ok v)) :
    r.exitCode = 0 ∧
    r.stdout = (if cmd = Commands.Get then [Version.render v] else []) := by
  cases st with
  | none =>
    simp [runCommand] at h1
    subst h1
    simp at h2
  | some fc =>
    cases cmd with
    | Get =>
      cases hg : get_version (some fc) with
      | ok w =>
        simp [runCommand, hg] at h1
        subst h1
        simp at h2
        subst h2
        simp
      | error e2 =>
        simp [runCommand, hg] at h1
        subst h1
        simp at h2
    | Set vArg =>
      cases hv : (match vArg with | some x => some x | none => read_stdin line) with
      | some vs =>
        cases hs : set_version (some fc) vs with
        | none => simp [runCommand, hv, hs] at h1
        | some p =>
          obtain ⟨r0, st3⟩ := p
          simp [runCommand, hv, hs] at h1
          subst h1
          simp at h2
          subst h2
          simp
      | none =>
        simp [runCommand, hv, parse000] at h1
        subst h1
        simp
    | Major =>
      cases hb : bump_toml_version (some fc) Increment.Major with
      | none => simp [runCommand, hb] at h1
      | some p =>
        obtain ⟨r0, st3⟩ := p
        simp [runCommand, hb] at h1
        subst h1
        simp at h2
        subst h2
        simp
    | Minor =>
      cases hb : bump_toml_version (some fc) Increment.Minor with
      | none => simp [runCommand, hb] at h1
      | some p =>
        obtain ⟨r0, st3⟩ := p
        simp [runCommand, hb] at h1
        subst h1
        simp at h2
        subst h2
        simp
    | Patch =>
      cases hb : bump_toml_version (some fc) Increment.Patch with
      | none => simp [runCommand, hb] at h1
      | some p =>
        obtain ⟨r0, st3⟩ := p
        simp [runCommand, hb] at h1
        subst h1
        simp at h2
        subst h2
        simp

/-- Witness for C5: a successful `get` on a well-formed manifest exits 0 and
prints the version. -/
theorem C5_success_exit_and_stdout_witness :
    (RunResult.mk 0 ["0.1.0"] (some (.ok ⟨0, 1, 0, "", ""⟩)) (some (.doc doc010))).exitCode = 0 ∧
    (RunResult.mk 0 ["0.1.0"] (some (.ok ⟨0, 1, 0, "", ""⟩)) (some (.doc doc010))).stdout =
      (if Commands.Get = Commands.Get then [Version.render ⟨0, 1, 0, "", ""⟩] else []) :=
  C5_success_exit_and_stdout (some (.doc doc010)) Commands.Get ""
    (RunResult.mk 0 ["0.1.0"] (some (.ok ⟨0, 1, 0, "", ""⟩)) (some (.doc doc010)))
    ⟨0, 1, 0, "", ""⟩ rfl rfl

/-- Claim C6 (confirmed): `set` with no argument and standard input that
trims to nothing raises no error — the run exits 0 with result version
`0.0.0` — and the manifest file state is left exactly unchanged. -/
theorem C6_set_empty_stdin_is_noop (fc : FileContent) (line : String)
    (h : rustTrim line = "") :
    runCommand (some fc) (Commands.Set none) line =
      some ⟨0, [], some (.ok ⟨0, 0, 0, "", ""⟩), some fc⟩ := by
  have hrs : read_stdin line = none := by
    simp only [read_stdin, h]
    rfl
  unfold runCommand
  simp only [hrs]
  rfl

/-- Witness for C6 on a concrete manifest and empty standard input. -/
theorem C6_set_empty_stdin_is_noop_witness :
    runCommand (some (.doc doc010)) (Commands.Set none) "" =
      some ⟨0, [], some (.ok ⟨0, 0, 0, "", ""⟩), some (.doc doc010)⟩ :=
  C6_set_empty_stdin_is_noop (.doc doc010) "" rfl

/-- Claim C7 (confirmed): on a file that parses as TOML,
`get_package_version_str` returns `s` exactly when the item at
`package.version` is the string `s`, and fails with the type-mismatch error
naming field `version` and type `string` exactly when that item is not a
string — including when the `package` table or `version` key is absent. -/
theorem C7_version_field_type (d : Document) :
    (∀ s, get_package_version_str (some (.doc d)) = .ok s ↔ d.versionItem = .str s) ∧
    (get_package_version_str (some (.doc d)) =
        .error (.InvalidFieldType "version" "string") ↔
      ∀ s, d.versionItem ≠ .str s) := by
  cases hv : d.versionItem with
  | nil => constructor
           · intro s
             simp [get_package_version_str, hv]
           · simp [get_package_version_str, hv]
  | str s0 =>
    constructor
    · intro s
      simp [get_package_version_str, hv]
    · simp [get_package_version_str, hv]
  | int n => constructor
             · intro s
               simp [get_package_version_str, hv]
             · simp [get_package_version_str, hv]
  | table es => constructor
                · intro s
                  simp [get_package_version_str, hv]
                · simp [get_package_version_str, hv]

/-- Claim C10 (confirmed): when `set_version` succeeds on input `new_value`,
the returned version is `parse new_value` and the value stored at
`package.version` in the written file is its canonical rendering
`render (parse new_value)`. -/
theorem C10_set_version_normalizes (st : FileState) (nv : String)
    (v : Version) (st2 : FileState)
    (h : set_version st nv = some (.ok v, st2)) :
    parseVersion nv = some v ∧
    get_package_version_str st2 = .ok (Version.render v) := by
  unfold set_version at h
  cases hp : parseVersion nv with
  | none => simp only [hp] at h; simp at h
  | some w =>
    simp only [hp] at h
    cases st with
    | none => simp at h
    | some fc =>
      cases fc with
      | raw s2 => simp at h
      | doc d =>
        cases hsp : d.setPackageVersion (Version.render w) with
        | none => simp [hsp] at h
        | some d2 =>
          simp [hsp] at h
          obtain ⟨hv, hst⟩ := h
          subst hv
          constructor
          · rfl
          · rw [← hst]
            simp [get_package_version_str,
              versionItem_setPackageVersion d d2 _ hsp]

/-- Witness for C10: setting `1.2.3` on a concrete manifest stores its
rendering and returns the parsed version. -/
theorem C10_set_version_normalizes_witness :
    parseVersion "1.2.3" = some ⟨1, 2, 3, "", ""⟩ ∧
    get_package_version_str
        (some (.doc ⟨[("package", .table [("version", .str "1.2.3")])]⟩)) =
      .ok (Version.render ⟨1, 2, 3, "", ""⟩) :=
  C10_set_version_normalizes (some (.doc doc010)) "1.2.3" ⟨1, 2, 3, "", ""⟩
    (some (.doc ⟨[("package", .table [("version", .str "1.2.3")])]⟩)) rfl
end CargoNext
